/-
Verification of the isoalloc hardened allocator core.

This file gives a shallow embedding, in Lean 4, of the allocator routines
from `iso_alloc.c` / `iso_alloc_util.c` (the zone bitmap state machine, the
free-bit-slot cache, the big-zone list, and the allocation/free dispatch
logic), together with theorems settling the specification claims about
them.

Machine integers are modelled as `Nat` with explicit reduction `% 2^w`
where overflow or wraparound matters.  Pointers are modelled as `Nat`
addresses.  The contents of user memory are not modelled except for the
per-chunk canary, which is abstracted as a boolean oracle `canary_ok`
recording, for each chunk index, whether the canary bytes currently stored
in that chunk match the expected value (`check_canary` aborts exactly when
the oracle is false; `write_canary` sets it to true).

Build configuration assumed (the default build): THREAD_SUPPORT on,
canaries enabled (!ENABLE_ASAN && !DISABLE_CANARY), SANITIZE_CHUNKS off,
SHUFFLE_BIT_SLOT_CACHE off, VERIFY_BIT_SLOT_CACHE off, MEMORY_TAGGING off,
NO_ZERO_ALLOCATIONS on where a claim concerns it.
-/
import Mathlib

namespace IsoAlloc

/-- From `iso_alloc_internal.h` (present in the repository sources):
the size of the bit slot freelist, `#define BIT_SLOT_CACHE_SZ 255`. -/
def BIT_SLOT_CACHE_SZ : Nat := 255

/-- From `iso_alloc_internal.h`: `#define ZONE_ALLOC_RETIRE 32`. -/
def ZONE_ALLOC_RETIRE : Nat := 32

/-- From `iso_alloc_internal.h`: `#define MAX_DEFAULT_ZONE_SZ ZONE_8192`. -/
def MAX_DEFAULT_ZONE_SZ : Nat := 8192

/-- Modelled from the spec: the fixed per-zone user region size
`ZONE_USER_SIZE` ("fixed per-zone user region (default 4 MiB)").  The
macro itself lives in a header that is not among the repository sources. -/
def ZONE_USER_SIZE : Nat := 4194304

/-- Modelled from the spec: `ALIGNMENT`, the minimum alignment every chunk
pointer must have ("Verify `p` is `ALIGNMENT`-aligned").  The macro lives
in a missing header; the customary value for this allocator is 8 bytes.
No claim depends on the concrete value. -/
def ALIGNMENT : Nat := 8

/-- Modelled from the spec: `BAD_BIT_SLOT`, the sentinel for "no bit
slot".  In the C sources it is the `int64_t` value `-1`; we model bit
slots as unsigned 64-bit numbers, so the sentinel is the all-ones word
(this also matches `memset(zone->free_bit_slot_cache, BAD_BIT_SLOT, ...)`
which fills the cache with 0xff bytes). -/
def BAD_BIT_SLOT : Nat := 2 ^ 64 - 1

/-- Modelled from the spec: number of chunks in a zone,
`GET_CHUNK_COUNT(zone) = ZONE_USER_SIZE / chunk_size` ("if a zone holds
128 byte chunks then it has (ZONE_USER_SIZE / 128) total chunks"). -/
def GET_CHUNK_COUNT (chunk_size : Nat) : Nat := ZONE_USER_SIZE / chunk_size

/-- Source `GET_BIT(n, k)`: `(n >> k) & 1UL` (macro from the internal
header, spec: "bit get/set/unset on 64-bit words"). -/
def getBit (n k : Nat) : Nat := (n >>> k) &&& 1

/-- Source `SET_BIT(n, k)`: `n |= 1UL << k`. -/
def setBit (n k : Nat) : Nat := n ||| (1 <<< k)

/-- Source `UNSET_BIT(n, k)`: `n &= ~(1UL << k)`; the complement is taken
on a 64-bit word. -/
def unsetBit (n k : Nat) : Nat := n &&& ((2 ^ 64 - 1) ^^^ (1 <<< k))

/-- Modelled from the spec: `WHICH_BIT(bit_slot)`, the offset of a bit
slot within its 64-bit bitmap word ("`bit_slot` is
`(word_index << 6) + bit_offset_within_word`"). -/
def WHICH_BIT (bit_slot : Nat) : Nat := bit_slot % 64

theorem getBit_eq_testBit (n k : Nat) : getBit n k = if n.testBit k then 1 else 0 := by
  simp [getBit, Nat.testBit, Nat.and_one_is_mod, Nat.mod_two_eq_zero_or_one]
  rcases Nat.mod_two_eq_zero_or_one (n >>> k) with h | h <;> simp [h, Nat.mod_two_eq_zero_or_one]

theorem testBit_setBit (n k j : Nat) :
    (setBit n k).testBit j = if j = k then true else n.testBit j := by
  simp only [setBit, Nat.testBit_or]
  rcases eq_or_ne j k with rfl | h
  · simp [Nat.testBit_shiftLeft, Nat.testBit_one_eq_true_iff_self_eq_zero]
  · simp only [if_neg h]
    have : (1 <<< k).testBit j = false := by
      simp only [Nat.shiftLeft_eq, one_mul, Nat.testBit_two_pow]
      exact decide_eq_false (Ne.symm h)
    simp [this]

theorem testBit_unsetBit (n k j : Nat) (hn : n < 2 ^ 64) :
    (unsetBit n k).testBit j = if j = k then false else n.testBit j := by
  have hmask : (2 ^ 64 - 1 : Nat).testBit j = decide (j < 64) := by
    have := Nat.testBit_two_pow_sub_one 64 j
    simpa using this
  have hshift : (1 <<< k).testBit j = decide (j = k) := by
    simp only [Nat.shiftLeft_eq, one_mul, Nat.testBit_two_pow]
    rcases eq_or_ne k j with rfl | h
    · simp
    · simp [h, Ne.symm h]
  have hand : (unsetBit n k).testBit j
      = (n.testBit j && (((2 ^ 64 - 1 : Nat)).testBit j ^^ (1 <<< k).testBit j)) := by
    simp [unsetBit, Nat.testBit_and, Nat.testBit_xor]
  rw [hand, hmask, hshift]
  rcases eq_or_ne j k with rfl | h
  · rcases Nat.lt_or_ge j 64 with hj | hj
    · simp [hj]
    · have hnj : n.testBit j = false :=
        Nat.testBit_eq_false_of_lt (lt_of_lt_of_le hn (Nat.pow_le_pow_right (by norm_num) hj))
      simp [hnj]
  · rcases Nat.lt_or_ge j 64 with hj | hj
    · simp [hj, h]
    · have hnj : n.testBit j = false :=
        Nat.testBit_eq_false_of_lt (lt_of_lt_of_le hn (Nat.pow_le_pow_right (by norm_num) hj))
      simp [hnj, h]

theorem setBit_lt (n k : Nat) (hn : n < 2 ^ 64) (hk : k < 64) : setBit n k < 2 ^ 64 := by
  have h1 : (1 <<< k) < 2 ^ 64 := by
    simp only [Nat.shiftLeft_eq, one_mul]
    exact Nat.pow_lt_pow_right (by norm_num) hk
  calc setBit n k = n ||| (1 <<< k) := rfl
    _ < 2 ^ 64 := Nat.or_lt_two_pow hn h1

theorem unsetBit_lt (n k : Nat) (hn : n < 2 ^ 64) : unsetBit n k < 2 ^ 64 := by
  have := Nat.and_le_left (n := n) (m := (2 ^ 64 - 1) ^^^ (1 <<< k))
  exact lt_of_le_of_lt this hn

/-- 64-bit wraparound subtraction, used where the C code subtracts
pointers / unsigned 64-bit values (e.g. `p - zone->user_pages_start`
cast to `uint64_t`). -/
def sub64 (a b : Nat) : Nat := (a + (2 ^ 64 - b % 2 ^ 64)) % 2 ^ 64

theorem sub64_eq_sub (a b : Nat) (h : b ≤ a) (ha : a < 2 ^ 64) : sub64 a b = a - b := by
  have hb : b < 2 ^ 64 := lt_of_le_of_lt h ha
  have hbm : b % 2 ^ 64 = b := Nat.mod_eq_of_lt hb
  have h1 : a + (2 ^ 64 - b) = 2 ^ 64 + (a - b) := by omega
  have h2 : a - b < 2 ^ 64 := lt_of_le_of_lt (Nat.sub_le a b) ha
  rw [sub64, hbm, h1, Nat.add_mod_left, Nat.mod_eq_of_lt h2]

/-- Abort reasons (each corresponds to a `LOG_AND_ABORT` site in the C
sources).  An aborted operation terminates the process, so an
`Except.error` result carries no final state. -/
inductive AbortKind where
  | addrOutOfRange      -- alloc: chunk address outside zone user pages
  | alreadyAllocated    -- alloc: low bit of the slot already 1
  | canaryCorrupt       -- check_canary failure
  | misaligned          -- free: pointer not ALIGNMENT-aligned
  | notChunkMultiple    -- free: offset not a multiple of chunk_size
  | bitmapRange         -- free: bit slot beyond the bitmap
  | doubleFree          -- free: low bit already 0 / big zone already free
  | overflow            -- calloc: multiplication overflow detected
  | tooBig              -- big alloc: size above BIG_SZ_MAX
  | corruption          -- inconsistent metadata (e.g. big zone not in list)
  deriving Repr, DecidableEq

/-- The per-zone state tracked by this embedding (a projection of the C
`iso_alloc_zone_t`; pointer-masking fields are omitted: all operations
below work on the unmasked view, matching the code between
`UNMASK_ZONE_PTRS`/`MASK_ZONE_PTRS`).  `bitmap` is the list of 64-bit
bitmap words; reads beyond the list return 0, matching the zeroed mapped
slack of the bitmap region.  `canary_ok n` abstracts whether the canary
bytes currently stored in chunk `n` verify; counters are 64-bit. -/
structure Zone where
  index : Nat
  chunk_size : Nat
  user_pages_start : Nat
  bitmap : List Nat
  bitmap_size : Nat
  af_count : Nat
  alloc_count : Nat
  next_free_bit_slot : Nat
  free_bit_slot_cache : List Nat
  free_bit_slot_cache_index : Nat
  free_bit_slot_cache_usable : Nat
  is_full : Bool
  internal : Bool
  canary_ok : Nat → Bool

/-- Source `check_canary(zone, p)` abstracted through the canary oracle:
it aborts iff the canary stored in the chunk does not verify. -/
def check_canary (zone : Zone) (chunk_number : Nat) : Except AbortKind Unit :=
  if zone.canary_ok chunk_number then Except.ok () else Except.error AbortKind.canaryCorrupt

/-- Source `write_canary(zone, p)` abstracted through the canary oracle:
after writing, the canary in that chunk verifies. -/
def write_canary (zone : Zone) (chunk_number : Nat) : Zone :=
  { zone with canary_ok := fun n => if n = chunk_number then true else zone.canary_ok n }

/-- Source `_iso_alloc_bitslot_from_zone(bitslot, zone)` (iso_alloc.c).
Returns the updated zone and the chunk pointer, or the abort the C code
would raise.  The canary-verification block is compiled in
(`!ENABLE_ASAN && !DISABLE_CANARY`); zeroing of the chunk's first qword
is not modelled (chunk payload bytes are outside the model). -/
def _iso_alloc_bitslot_from_zone (bitslot : Nat) (zone : Zone) :
    Except AbortKind (Zone × Nat) :=
  let dwords_to_bit_slot := bitslot >>> 6
  let which_bit := WHICH_BIT bitslot
  let p := zone.user_pages_start + (bitslot / 2) * zone.chunk_size
  let b := zone.bitmap.getD dwords_to_bit_slot 0
  if p > zone.user_pages_start + ZONE_USER_SIZE then
    Except.error AbortKind.addrOutOfRange
  else if getBit b which_bit ≠ 0 then
    Except.error AbortKind.alreadyAllocated
  else if getBit b (which_bit + 1) = 1 ∧ zone.canary_ok (bitslot / 2) = false then
    Except.error AbortKind.canaryCorrupt
  else
    let b1 := setBit b which_bit
    let b2 := unsetBit b1 (which_bit + 1)
    Except.ok
      ({ zone with
          bitmap := zone.bitmap.set dwords_to_bit_slot b2,
          af_count := (zone.af_count + 1) % 2 ^ 64,
          alloc_count := (zone.alloc_count + 1) % 2 ^ 64 }, p)

/-- Source `insert_free_bit_slot(zone, bit_slot)` (iso_alloc.c); the
`VERIFY_BIT_SLOT_CACHE` block is compiled out by default. -/
def insert_free_bit_slot (zone : Zone) (bit_slot : Nat) : Zone :=
  if zone.free_bit_slot_cache_index ≥ BIT_SLOT_CACHE_SZ then zone
  else
    { zone with
        free_bit_slot_cache :=
          zone.free_bit_slot_cache.set zone.free_bit_slot_cache_index bit_slot,
        free_bit_slot_cache_index := zone.free_bit_slot_cache_index + 1 }

/-- Source `get_next_free_bit_slot(zone)` (iso_alloc.c).  Returns the
updated zone and the returned slot. -/
def get_next_free_bit_slot (zone : Zone) : Zone × Nat :=
  if zone.free_bit_slot_cache_usable ≥ BIT_SLOT_CACHE_SZ ∨
      zone.free_bit_slot_cache_usable > zone.free_bit_slot_cache_index then
    (zone, BAD_BIT_SLOT)
  else
    let slot := zone.free_bit_slot_cache.getD zone.free_bit_slot_cache_usable 0
    ({ zone with
        next_free_bit_slot := slot,
        free_bit_slot_cache :=
          zone.free_bit_slot_cache.set zone.free_bit_slot_cache_usable BAD_BIT_SLOT,
        free_bit_slot_cache_usable := zone.free_bit_slot_cache_usable + 1 }, slot)

/-- The bitmap/counter mutation phase of `iso_free_chunk_from_zone`
(steps after the double-free check): set the high bit, for a plain free
clear the low bit, push the slot into the free-slot cache and clear
`is_full`, write the word back, decrement `af_count`, write a fresh
canary into the freed chunk. -/
def iso_free_chunk_write (zone : Zone) (chunk_number : Nat) (permanent : Bool) : Zone :=
  let bit_slot := chunk_number <<< 1
  let dwords_to_bit_slot := bit_slot >>> 6
  let which_bit := WHICH_BIT bit_slot
  let b := zone.bitmap.getD dwords_to_bit_slot 0
  let b1 := setBit b (which_bit + 1)
  let b2 := if permanent = false then unsetBit b1 which_bit else b1
  let zone1 :=
    if permanent = false then
      { insert_free_bit_slot zone bit_slot with is_full := false }
    else zone
  let zone2 :=
    { zone1 with
        bitmap := zone1.bitmap.set dwords_to_bit_slot b2,
        af_count := (zone1.af_count + (2 ^ 64 - 1)) % 2 ^ 64 }
  write_canary zone2 chunk_number

/-- The neighbour-canary verification at the end of
`iso_free_chunk_from_zone`: if the chunk over (resp. under) the freed one
exists and its high bit is set (it carries a canary), verify it. -/
def free_neighbor_checks (zone : Zone) (chunk_number : Nat) : Except AbortKind Unit :=
  let over_ok :=
    if chunk_number + 1 ≠ GET_CHUNK_COUNT zone.chunk_size then
      let bit_slot_over := (chunk_number + 1) <<< 1
      if getBit (zone.bitmap.getD (bit_slot_over >>> 6) 0)
          (WHICH_BIT bit_slot_over + 1) = 1 then
        zone.canary_ok (chunk_number + 1)
      else true
    else true
  if over_ok = false then Except.error AbortKind.canaryCorrupt
  else
    let under_ok :=
      if chunk_number ≠ 0 then
        let bit_slot_under := (chunk_number - 1) <<< 1
        if getBit (zone.bitmap.getD (bit_slot_under >>> 6) 0)
            (WHICH_BIT bit_slot_under + 1) = 1 then
          zone.canary_ok (chunk_number - 1)
        else true
      else true
    if under_ok = false then Except.error AbortKind.canaryCorrupt
    else Except.ok ()

/-- Source `iso_free_chunk_from_zone(zone, p, permanent)` (iso_alloc.c),
with canaries enabled and `SANITIZE_CHUNKS` off.  Poisoning and the
thread zone cache push are outside the model. -/
def iso_free_chunk_from_zone (zone : Zone) (p : Nat) (permanent : Bool) :
    Except AbortKind Zone :=
  -- IS_ALIGNED: p & (ALIGNMENT - 1)
  if p &&& (ALIGNMENT - 1) ≠ 0 then Except.error AbortKind.misaligned
  else
    let chunk_offset := sub64 p zone.user_pages_start
    if chunk_offset &&& (zone.chunk_size - 1) ≠ 0 then Except.error AbortKind.notChunkMultiple
    else
      let chunk_number := chunk_offset / zone.chunk_size
      let bit_slot := chunk_number <<< 1
      let dwords_to_bit_slot := bit_slot >>> 6
      if dwords_to_bit_slot > zone.bitmap_size >>> 3 then Except.error AbortKind.bitmapRange
      else
        let which_bit := WHICH_BIT bit_slot
        let b := zone.bitmap.getD dwords_to_bit_slot 0
        if getBit b which_bit = 0 then Except.error AbortKind.doubleFree
        else
          let zone3 := iso_free_chunk_write zone chunk_number permanent
          match free_neighbor_checks zone3 chunk_number with
          | Except.error e => Except.error e
          | Except.ok () => Except.ok zone3

/-! ### The af_count invariant (spec §3 / §8)

"At any instant, the number of bits with pattern `10` (in-use) equals
`af_count`."  `slotInUse w t` reads the 2-bit state of slot `t` inside
word `w` (low bit first): in-use means low bit 1, high bit 0. -/

/-- The 2-bit state of slot `t` (0 ≤ t < 32) of bitmap word `w` is the
in-use pattern `10` (low bit set, high bit clear). -/
def slotInUse (w t : Nat) : Bool := w.testBit (2 * t) && !w.testBit (2 * t + 1)

/-- Number of in-use slots in one 64-bit bitmap word (32 slots). -/
def wordInUse (w : Nat) : Nat := (List.range 32).countP (slotInUse w)

/-- Number of in-use slots in a zone's bitmap. -/
def zoneInUse (zone : Zone) : Nat := (zone.bitmap.map wordInUse).sum

/-- The quantified invariant of spec §8:
`|{s : state(s) == in-use}| == Z.af_count`. -/
def afInvariant (zone : Zone) : Prop := zoneInUse zone = zone.af_count

instance (zone : Zone) : Decidable (afInvariant zone) := by
  unfold afInvariant
  infer_instance

/-- Counting helper: if two predicates agree on every element of a
duplicate-free list except possibly at `a ∈ l`, their counts differ only
by the contributions at `a`. -/
theorem countP_agree_except {α : Type} [DecidableEq α] (p q : α → Bool) (l : List α)
    (a : α) (hnd : l.Nodup) (ha : a ∈ l) (hag : ∀ x ∈ l, x ≠ a → p x = q x) :
    l.countP p + (if q a then 1 else 0) = l.countP q + (if p a then 1 else 0) := by
  have hperm : l.Perm (a :: l.erase a) := List.perm_cons_erase ha
  have hp := hperm.countP_eq p
  have hq := hperm.countP_eq q
  have hrest : (l.erase a).countP p = (l.erase a).countP q := by
    apply List.countP_congr
    intro x hx
    have hx' := (List.Nodup.mem_erase_iff hnd).mp hx
    rw [hag x hx'.2 hx'.1]
  rw [hp, hq, List.countP_cons, List.countP_cons, hrest]
  omega

/-- If the slots of `w'` agree with those of `w` except at `t0 < 32`, the
in-use counts differ only by the slot-`t0` contributions. -/
theorem wordInUse_agree_except (w w' t0 : Nat) (ht : t0 < 32)
    (hag : ∀ t, t < 32 → t ≠ t0 → slotInUse w' t = slotInUse w t) :
    wordInUse w' + (if slotInUse w t0 then 1 else 0)
      = wordInUse w + (if slotInUse w' t0 then 1 else 0) := by
  apply countP_agree_except (slotInUse w') (slotInUse w) (List.range 32) t0
    (List.nodup_range 32) (List.mem_range.mpr ht)
  intro x hx hne
  exact hag x (List.mem_range.mp hx) hne

/-- Replacing element `i` of a list changes the sum of `f` over it by
exactly the difference of contributions (additive form). -/
theorem sum_map_set (f : Nat → Nat) :
    ∀ (l : List Nat) (i : Nat) (x : Nat), i < l.length →
      ((l.set i x).map f).sum + f (l.getD i 0) = (l.map f).sum + f x
  | [], i, _, h => absurd h (by simp)
  | a :: l, 0, x, _ => by simp; omega
  | a :: l, i + 1, x, h => by
    have ih := sum_map_set f l i x (by simpa using h)
    simp only [List.set, List.map_cons, List.sum_cons, List.getD_cons_succ]
    omega

/-- A word containing an in-use slot has a positive in-use count. -/
theorem wordInUse_pos (w t0 : Nat) (ht : t0 < 32) (hs : slotInUse w t0 = true) :
    1 ≤ wordInUse w := by
  have : 0 < (List.range 32).countP (slotInUse w) :=
    List.countP_pos_iff.mpr ⟨t0, List.mem_range.mpr ht, hs⟩
  exact this

/-- A zone whose bitmap contains an in-use slot has a positive in-use count. -/
theorem zoneInUse_pos (zone : Zone) (i t0 : Nat) (hi : i < zone.bitmap.length)
    (ht : t0 < 32) (hs : slotInUse (zone.bitmap.getD i 0) t0 = true) :
    1 ≤ zoneInUse zone := by
  have hmem : wordInUse (zone.bitmap.getD i 0) ∈ zone.bitmap.map wordInUse := by
    apply List.mem_map_of_mem
    have := List.getD_eq_getElem zone.bitmap 0 hi
    rw [this]
    exact List.getElem_mem hi
  have h1 := wordInUse_pos _ _ ht hs
  have h2 : wordInUse (zone.bitmap.getD i 0) ≤ (zone.bitmap.map wordInUse).sum :=
    List.single_le_sum (fun a _ => Nat.zero_le a) _ hmem
  exact le_trans h1 h2

/-- Decrement of a 64-bit counter: `x--` compiles to adding `2^64 - 1`
modulo `2^64`; for a positive in-range counter this is exact. -/
theorem dec64_eq_sub (a : Nat) (h1 : 1 ≤ a) (h2 : a < 2 ^ 64) :
    (a + (2 ^ 64 - 1)) % 2 ^ 64 = a - 1 := by
  have h3 : a + (2 ^ 64 - 1) = 2 ^ 64 + (a - 1) := by omega
  rw [h3, Nat.add_mod_left, Nat.mod_eq_of_lt (by omega)]

/-- A bitmap word read at a valid index is an element of the bitmap. -/
theorem getD_mem_of_lt (l : List Nat) (i : Nat) (hi : i < l.length) :
    l.getD i 0 ∈ l := by
  rw [List.getD_eq_getElem l 0 hi]
  exact List.getElem_mem hi

/-- Allocation from a bit slot preserves the af_count invariant: the
targeted slot moves from a not-in-use state (low bit 0) to in-use, and
`af_count` is incremented alongside. -/
theorem alloc_bitslot_preserves_afInvariant (z : Zone) (bitslot : Nat) (z' : Zone) (p : Nat)
    (hwf : ∀ w ∈ z.bitmap, w < 2 ^ 64)
    (heven : bitslot % 2 = 0)
    (hdw : bitslot >>> 6 < z.bitmap.length)
    (haf : z.af_count + 1 < 2 ^ 64)
    (hinv : afInvariant z)
    (h : _iso_alloc_bitslot_from_zone bitslot z = Except.ok (z', p)) :
    afInvariant z' := by
  simp only [_iso_alloc_bitslot_from_zone] at h
  split at h
  · exact absurd h (by simp)
  · split at h
    · exact absurd h (by simp)
    · split at h
      · exact absurd h (by simp)
      · -- success branch
        rename_i hrange hlow hcanary
        injection h with h
        injection h with hz hp
        subst hz
        -- names for the pieces
        set dwords := bitslot >>> 6 with hdwords
        set which := WHICH_BIT bitslot with hwhich
        set b := z.bitmap.getD dwords 0 with hb
        have hblt : b < 2 ^ 64 := hwf b (getD_mem_of_lt _ _ hdw)
        have hwhich_lt : which < 64 := Nat.mod_lt _ (by norm_num)
        have hwhich_even : which % 2 = 0 := by
          rw [hwhich]
          unfold WHICH_BIT
          omega
        have hsetlt : setBit b which < 2 ^ 64 := setBit_lt _ _ hblt hwhich_lt
        have hlow' : b.testBit which = false := by
          rw [getBit_eq_testBit] at hlow
          by_contra hc
          simp [eq_true_of_ne_false hc] at hlow
        set t0 := which / 2 with ht0
        have ht0lt : t0 < 32 := by omega
        have h2t0 : 2 * t0 = which := by omega
        set b2 := unsetBit (setBit b which) (which + 1) with hb2
        -- the slot transitions from not-in-use to in-use
        have hslot_before : slotInUse b t0 = false := by
          simp [slotInUse, h2t0, hlow']
        have hslot_after : slotInUse b2 t0 = true := by
          simp only [slotInUse, h2t0, hb2]
          rw [testBit_unsetBit _ _ _ hsetlt, testBit_unsetBit _ _ _ hsetlt]
          simp [testBit_setBit, Nat.ne_of_lt (Nat.lt_succ_self which)]
        have hagree : ∀ t, t < 32 → t ≠ t0 → slotInUse b2 t = slotInUse b t := by
          intro t _ hne
          have hlo : 2 * t ≠ which := by omega
          have hlo1 : 2 * t ≠ which + 1 := by omega
          have hhi : 2 * t + 1 ≠ which := by omega
          have hhi1 : 2 * t + 1 ≠ which + 1 := by omega
          simp only [slotInUse, hb2]
          rw [testBit_unsetBit _ _ _ hsetlt, testBit_unsetBit _ _ _ hsetlt]
          simp [testBit_setBit, hlo, hlo1, hhi, hhi1]
        have hword := wordInUse_agree_except b b2 t0 ht0lt hagree
        rw [hslot_before, hslot_after] at hword
        simp at hword
        -- sum over the updated bitmap
        have hsum := sum_map_set wordInUse z.bitmap dwords b2 hdw
        rw [← hb] at hsum
        unfold afInvariant zoneInUse at hinv ⊢
        simp only at hsum ⊢
        rw [Nat.mod_eq_of_lt haf]
        omega
  -- the error cases are closed above

theorem write_canary_bitmap (z : Zone) (n : Nat) : (write_canary z n).bitmap = z.bitmap := rfl

theorem write_canary_af (z : Zone) (n : Nat) : (write_canary z n).af_count = z.af_count := rfl

theorem insert_free_bit_slot_bitmap (z : Zone) (s : Nat) :
    (insert_free_bit_slot z s).bitmap = z.bitmap := by
  unfold insert_free_bit_slot; split <;> rfl

theorem insert_free_bit_slot_af (z : Zone) (s : Nat) :
    (insert_free_bit_slot z s).af_count = z.af_count := by
  unfold insert_free_bit_slot; split <;> rfl

theorem iso_free_chunk_write_bitmap (z : Zone) (cn : Nat) (permanent : Bool) :
    (iso_free_chunk_write z cn permanent).bitmap
      = z.bitmap.set ((cn <<< 1) >>> 6)
          (if permanent = false then
            unsetBit (setBit (z.bitmap.getD ((cn <<< 1) >>> 6) 0) (WHICH_BIT (cn <<< 1) + 1))
              (WHICH_BIT (cn <<< 1))
          else setBit (z.bitmap.getD ((cn <<< 1) >>> 6) 0) (WHICH_BIT (cn <<< 1) + 1)) := by
  unfold iso_free_chunk_write write_canary
  cases permanent <;> (simp [insert_free_bit_slot]; try (split <;> rfl))

theorem iso_free_chunk_write_af (z : Zone) (cn : Nat) (permanent : Bool) :
    (iso_free_chunk_write z cn permanent).af_count
      = (z.af_count + (2 ^ 64 - 1)) % 2 ^ 64 := by
  unfold iso_free_chunk_write write_canary
  cases permanent <;> (simp [insert_free_bit_slot]; try (split <;> rfl))

/-- A successful `iso_free_chunk_from_zone` returns exactly the state
produced by the mutation phase, and implies every guard passed: the
pointer is aligned, a chunk multiple, within the bitmap, and the
double-free guard saw a set low bit. -/
theorem iso_free_chunk_ok_elim (z : Zone) (p : Nat) (permanent : Bool) (z' : Zone)
    (h : iso_free_chunk_from_zone z p permanent = Except.ok z') :
    z' = iso_free_chunk_write z (sub64 p z.user_pages_start / z.chunk_size) permanent ∧
      p &&& (ALIGNMENT - 1) = 0 ∧
      sub64 p z.user_pages_start &&& (z.chunk_size - 1) = 0 ∧
      ((sub64 p z.user_pages_start / z.chunk_size) <<< 1) >>> 6 ≤ z.bitmap_size >>> 3 ∧
      getBit (z.bitmap.getD (((sub64 p z.user_pages_start / z.chunk_size) <<< 1) >>> 6) 0)
        (WHICH_BIT ((sub64 p z.user_pages_start / z.chunk_size) <<< 1)) ≠ 0 := by
  simp only [iso_free_chunk_from_zone] at h
  split at h
  · exact absurd h (by simp)
  · split at h
    · exact absurd h (by simp)
    · split at h
      · exact absurd h (by simp)
      · split at h
        · exact absurd h (by simp)
        · rename_i hal hmul hrange hlow
          split at h
          · exact absurd h (by simp)
          · injection h with h
            refine ⟨h.symm, ?_, ?_, ?_, hlow⟩
            · exact Decidable.of_not_not hal
            · exact Decidable.of_not_not hmul
            · exact not_lt.mp hrange

theorem iso_free_chunk_write_ups (z : Zone) (cn : Nat) (permanent : Bool) :
    (iso_free_chunk_write z cn permanent).user_pages_start = z.user_pages_start := by
  unfold iso_free_chunk_write write_canary
  cases permanent <;> (simp [insert_free_bit_slot]; try (split <;> rfl))

theorem iso_free_chunk_write_chunk_size (z : Zone) (cn : Nat) (permanent : Bool) :
    (iso_free_chunk_write z cn permanent).chunk_size = z.chunk_size := by
  unfold iso_free_chunk_write write_canary
  cases permanent <;> (simp [insert_free_bit_slot]; try (split <;> rfl))

theorem iso_free_chunk_write_bitmap_size (z : Zone) (cn : Nat) (permanent : Bool) :
    (iso_free_chunk_write z cn permanent).bitmap_size = z.bitmap_size := by
  unfold iso_free_chunk_write write_canary
  cases permanent <;> (simp [insert_free_bit_slot]; try (split <;> rfl))

theorem iso_free_chunk_write_alloc_count (z : Zone) (cn : Nat) (permanent : Bool) :
    (iso_free_chunk_write z cn permanent).alloc_count = z.alloc_count := by
  unfold iso_free_chunk_write write_canary
  cases permanent <;> (simp [insert_free_bit_slot]; try (split <;> rfl))

/-- Freeing a chunk whose slot is in the in-use state `10` preserves the
af_count invariant: the slot leaves the in-use set (to `01` for a plain
free, `11` for a permanent free) and `af_count` is decremented alongside. -/
theorem free_chunk_preserves_afInvariant (z : Zone) (p : Nat) (permanent : Bool) (z' : Zone)
    (hwf : ∀ w ∈ z.bitmap, w < 2 ^ 64)
    (haf : z.af_count < 2 ^ 64)
    (hinv : afInvariant z)
    (hhigh : getBit (z.bitmap.getD (((sub64 p z.user_pages_start / z.chunk_size) <<< 1) >>> 6) 0)
        (WHICH_BIT ((sub64 p z.user_pages_start / z.chunk_size) <<< 1) + 1) = 0)
    (h : iso_free_chunk_from_zone z p permanent = Except.ok z') :
    afInvariant z' := by
  obtain ⟨hz', _, _, _, hlow⟩ := iso_free_chunk_ok_elim z p permanent z' h
  set cn := sub64 p z.user_pages_start / z.chunk_size with hcn
  set bs := cn <<< 1 with hbs
  set dwords := bs >>> 6 with hdwords
  set which := WHICH_BIT bs with hwhich
  set b := z.bitmap.getD dwords 0 with hbdef
  have hlow' : b.testBit which = true := by
    rw [getBit_eq_testBit] at hlow
    by_contra hc
    simp [eq_false_of_ne_true hc] at hlow
  have hhigh' : b.testBit (which + 1) = false := by
    rw [getBit_eq_testBit] at hhigh
    by_contra hc
    simp [eq_true_of_ne_false hc] at hhigh
  have hdw : dwords < z.bitmap.length := by
    by_contra hc
    push_neg at hc
    have hb0 : b = 0 := by
      rw [hbdef]
      exact List.getD_eq_default _ _ hc
    rw [hb0] at hlow'
    simp [Nat.zero_testBit] at hlow'
  have hblt : b < 2 ^ 64 := hwf b (getD_mem_of_lt _ _ hdw)
  have hwhich_lt : which < 64 := Nat.mod_lt _ (by norm_num)
  have hwhich_even : which % 2 = 0 := by
    rw [hwhich]
    unfold WHICH_BIT
    rw [hbs]
    omega
  have hb1lt : setBit b (which + 1) < 2 ^ 64 :=
    setBit_lt _ _ hblt (by omega)
  set t0 := which / 2 with ht0
  have ht0lt : t0 < 32 := by omega
  have h2t0 : 2 * t0 = which := by omega
  have hslot_before : slotInUse b t0 = true := by
    simp [slotInUse, h2t0, hlow', hhigh']
  set b1 := setBit b (which + 1) with hb1
  set b2 := (if permanent = false then unsetBit b1 which else b1) with hb2
  have hb2cases : b2 = unsetBit b1 which ∨ (permanent = true ∧ b2 = b1) := by
    rcases permanent with _ | _
    · left
      rw [hb2]
      simp
    · right
      refine ⟨rfl, ?_⟩
      rw [hb2]
      simp
  have hslot_after : slotInUse b2 t0 = false := by
    rcases hb2cases with hb2' | ⟨_, hb2'⟩
    · rw [hb2']
      simp only [slotInUse, h2t0]
      rw [testBit_unsetBit _ _ _ hb1lt]
      simp
    · rw [hb2', hb1]
      simp only [slotInUse, h2t0]
      rw [testBit_setBit, testBit_setBit]
      simp
  have hagree : ∀ t, t < 32 → t ≠ t0 → slotInUse b2 t = slotInUse b t := by
    intro t _ hne
    have hlo : 2 * t ≠ which := by omega
    have hlo1 : 2 * t ≠ which + 1 := by omega
    have hhi : 2 * t + 1 ≠ which := by omega
    have hhi1 : 2 * t + 1 ≠ which + 1 := by omega
    rcases hb2cases with hb2' | ⟨_, hb2'⟩
    · rw [hb2', hb1]
      simp only [slotInUse]
      rw [testBit_unsetBit _ _ _ hb1lt, testBit_unsetBit _ _ _ hb1lt]
      rw [testBit_setBit, testBit_setBit]
      simp [hlo, hlo1, hhi, hhi1]
    · rw [hb2', hb1]
      simp only [slotInUse]
      rw [testBit_setBit, testBit_setBit]
      simp [hlo1, hhi1]
  have hword := wordInUse_agree_except b b2 t0 ht0lt hagree
  rw [hslot_before, hslot_after] at hword
  simp at hword
  have hpos : 1 ≤ zoneInUse z := zoneInUse_pos z dwords t0 hdw ht0lt hslot_before
  have hafpos : 1 ≤ z.af_count := by
    unfold afInvariant at hinv
    omega
  have hsum := sum_map_set wordInUse z.bitmap dwords b2 hdw
  rw [← hbdef] at hsum
  have hbm := iso_free_chunk_write_bitmap z cn permanent
  have haf' := iso_free_chunk_write_af z cn permanent
  rw [← hbs, ← hdwords, ← hwhich, ← hbdef, ← hb1, ← hb2] at hbm
  unfold afInvariant zoneInUse at hinv ⊢
  rw [hz', hbm, haf', dec64_eq_sub _ hafpos haf]
  simp only [zoneInUse] at hpos
  omega

/-- One iteration of the loop in source `create_canary_chunks(zone)`
(iso_alloc.c): for a randomly drawn bitmap word index, if the word's
first slot is untouched (bit 0 clear), set its two bits (pattern `11`)
and write a canary into the corresponding chunk. -/
def create_canary_chunk (zone : Zone) (bm_idx : Nat) : Zone :=
  let w := zone.bitmap.getD bm_idx 0
  if getBit w 0 = 1 then zone
  else
    let zone' := { zone with bitmap := zone.bitmap.set bm_idx (setBit (setBit w 0) 1) }
    write_canary zone' ((bm_idx <<< 6) / 2)

/-- Source `create_canary_chunks(zone)` (iso_alloc.c), with the sequence
of randomly drawn word indices (`ALIGN_SZ_DOWN(rand_uint64() % max)`,
`canary_count` many) passed in as a parameter.  Zones holding chunks
larger than `MAX_DEFAULT_ZONE_SZ` get no canary chunks. -/
def create_canary_chunks (zone : Zone) (idxs : List Nat) : Zone :=
  if zone.chunk_size > MAX_DEFAULT_ZONE_SZ then zone
  else idxs.foldl create_canary_chunk zone

/-- Turning a never-used slot into a canary chunk does not change the
in-use count nor `af_count`. -/
theorem create_canary_chunk_zoneInUse (zone : Zone) (bm_idx : Nat) :
    zoneInUse (create_canary_chunk zone bm_idx) = zoneInUse zone ∧
      (create_canary_chunk zone bm_idx).af_count = zone.af_count := by
  unfold create_canary_chunk
  dsimp only
  by_cases hlow : getBit (zone.bitmap.getD bm_idx 0) 0 = 1
  · rw [if_pos hlow]
    exact ⟨rfl, rfl⟩
  · rw [if_neg hlow]
    constructor
    · set w := zone.bitmap.getD bm_idx 0 with hw
      set w' := setBit (setBit w 0) 1 with hw'
      rcases Nat.lt_or_ge bm_idx zone.bitmap.length with hlt | hge
      · have hlow' : w.testBit 0 = false := by
          rw [getBit_eq_testBit] at hlow
          by_contra hc
          simp [eq_true_of_ne_false hc] at hlow
        have hslot_before : slotInUse w 0 = false := by
          simp [slotInUse, hlow']
        have hslot_after : slotInUse w' 0 = false := by
          have h1 : w'.testBit 1 = true := by
            rw [hw', testBit_setBit]
            simp
          simp [slotInUse, h1]
        have hagree : ∀ t, t < 32 → t ≠ 0 → slotInUse w' t = slotInUse w t := by
          intro t _ hne
          have h1 : 2 * t ≠ 0 := by omega
          have h2 : 2 * t ≠ 1 := by omega
          have h3 : 2 * t + 1 ≠ 0 := by omega
          have h4 : 2 * t + 1 ≠ 1 := by omega
          simp only [slotInUse, hw']
          rw [testBit_setBit, testBit_setBit, testBit_setBit, testBit_setBit]
          simp [h1, h2, h3, h4]
        have hword := wordInUse_agree_except w w' 0 (by norm_num) hagree
        rw [hslot_before, hslot_after] at hword
        simp at hword
        have hsum := sum_map_set wordInUse zone.bitmap bm_idx w' hlt
        rw [← hw] at hsum
        unfold zoneInUse write_canary
        simp only
        omega
      · have hset : zone.bitmap.set bm_idx w' = zone.bitmap :=
          List.set_eq_of_length_le hge
        unfold zoneInUse write_canary
        simp [hset]
    · unfold write_canary
      rfl

/-- Canary-chunk creation preserves the af_count invariant. -/
theorem create_canary_chunks_preserves_afInvariant (zone : Zone) (idxs : List Nat)
    (hinv : afInvariant zone) :
    afInvariant (create_canary_chunks zone idxs) := by
  unfold create_canary_chunks
  split
  · exact hinv
  · clear * - hinv
    induction idxs generalizing zone with
    | nil => exact hinv
    | cons i is ih =>
      simp only [List.foldl_cons]
      apply ih
      have h := create_canary_chunk_zoneInUse zone i
      unfold afInvariant at hinv ⊢
      rw [h.1, h.2]
      exact hinv

/-! ### Free-slot cache refill (spec §4.4) -/

/-- Source `fill_free_bit_slot_cache(zone)` (iso_alloc.c), with the
random starting word index passed as a parameter and the optional
Fisher-Yates shuffle (`SHUFFLE_BIT_SLOT_CACHE`) compiled out.  The scan
walks words from `start_idx` to the end of the bitmap
(`GET_MAX_BITMASK_INDEX = bitmap_size / 8`, no wrap-around), collecting
slots whose low bit is 0 until 255 entries are found; the cache is first
memset to `BAD_BIT_SLOT` (0xff bytes). -/
def fill_free_bit_slot_cache (zone : Zone) (start_idx : Nat) : Zone :=
  let max_bitmap_idx := zone.bitmap_size >>> 3
  let idxs := (List.range (max_bitmap_idx - start_idx)).map (fun k => start_idx + k)
  let slots := (idxs.map (fun i =>
      (List.range 32).filterMap (fun t =>
        if getBit (zone.bitmap.getD i 0) (2 * t) = 0 then some ((i <<< 6) + 2 * t)
        else none))).flatten
  let taken := slots.take BIT_SLOT_CACHE_SZ
  { zone with
      free_bit_slot_cache :=
        taken ++ List.replicate (BIT_SLOT_CACHE_SZ - taken.length) BAD_BIT_SLOT,
      free_bit_slot_cache_usable := 0,
      free_bit_slot_cache_index := taken.length }

/-- The free-slot-cache well-formedness maintained by the program: the
write cursor never exceeds the capacity, the cache array has its fixed
C size, and every entry at or past the write cursor holds the
`BAD_BIT_SLOT` sentinel (established by the refill's memset and
maintained by enqueue/dequeue). -/
def cacheInv (z : Zone) : Prop :=
  z.free_bit_slot_cache_index ≤ BIT_SLOT_CACHE_SZ ∧
  z.free_bit_slot_cache.length = BIT_SLOT_CACHE_SZ ∧
  ∀ k, k < BIT_SLOT_CACHE_SZ → z.free_bit_slot_cache_index ≤ k →
    z.free_bit_slot_cache.getD k 0 = BAD_BIT_SLOT

instance (z : Zone) : Decidable (cacheInv z) := by
  unfold cacheInv
  infer_instance

/-! ### Big-zone list (spec §4.12) -/

/-- A big-zone record (`iso_alloc_big_zone_t`): the user mapping base,
the page-rounded size, and the free flag.  `canary_ok` abstracts whether
the record's two canaries verify (`check_big_canary` aborts iff not). -/
structure BigZone where
  user_pages_start : Nat
  size : Nat
  free : Bool
  canary_ok : Bool
  deriving Repr, DecidableEq

instance : Inhabited BigZone := ⟨⟨0, 0, false, true⟩⟩

/-- Modelled from the spec: `ROUND_UP_PAGE` ("round size up to a page"),
computed in 64-bit arithmetic (the following `new_size < size` check in
`_iso_big_alloc` catches the wraparound case). -/
def ROUND_UP_PAGE (page_size n : Nat) : Nat :=
  (((n + page_size - 1) / page_size) * page_size) % 2 ^ 64

/-- How the allocator walks and (possibly) mutates the big-zone list. -/
inductive BigAllocResult where
  | reuse : List BigZone → Nat → BigAllocResult
  | newMapping : BigAllocResult
  deriving Repr

/-- The list walk of `_iso_big_alloc`: verify each visited record's
canaries, stop at the first record with `free == true && size >= sz`.
Returns the updated list (the found record's `free` flag cleared) and
its `user_pages_start`, or `none` when no record fits (the code then
maps fresh pages). -/
def bigWalkReuse (l : List BigZone) (sz : Nat) : Except AbortKind (Option (List BigZone × Nat)) :=
  match l with
  | [] => Except.ok none
  | b :: rest =>
    if b.canary_ok = false then Except.error AbortKind.canaryCorrupt
    else if b.free = true ∧ b.size ≥ sz then
      Except.ok (some ({ b with free := false } :: rest, b.user_pages_start))
    else
      match bigWalkReuse rest sz with
      | Except.error e => Except.error e
      | Except.ok none => Except.ok none
      | Except.ok (some (rest', addr)) => Except.ok (some (b :: rest', addr))

/-- Source `_iso_big_alloc(size)` (iso_alloc.c) up to the point where a
fresh mapping would be created.  `big_sz_max` (`BIG_SZ_MAX`) and the
system page size are configuration constants from a header not among the
sources, passed as parameters. -/
def _iso_big_alloc (big_sz_max page_size : Nat) (l : List BigZone) (size : Nat) :
    Except AbortKind BigAllocResult :=
  let new_size := ROUND_UP_PAGE page_size size
  if new_size < size ∨ new_size > big_sz_max then Except.error AbortKind.tooBig
  else
    match bigWalkReuse l new_size with
    | Except.error e => Except.error e
    | Except.ok none => Except.ok BigAllocResult.newMapping
    | Except.ok (some (l', addr)) => Except.ok (BigAllocResult.reuse l' addr)

/-- Source `iso_free_big_zone(big_zone, permanent)` (iso_alloc.c), on the
list with the target record given by its position.  A non-permanent free
marks the record free (poison/madvise are outside the model).  A
permanent free unlinks it: when the target is the list head the code
sets `_root->big_zone_head = NULL` (dropping the whole list), otherwise
it walks the list — verifying each visited record's canaries — to patch
the predecessor, aborting if the target is not found. -/
def iso_free_big_zone (l : List BigZone) (idx : Nat) (permanent : Bool) :
    Except AbortKind (List BigZone) :=
  let bz := l.getD idx default
  if bz.free = true then Except.error AbortKind.doubleFree
  else if permanent = false then Except.ok (l.set idx { bz with free := true })
  else if idx = 0 then Except.ok []
  else if (l.take idx).all (fun b => b.canary_ok) = false then
    Except.error AbortKind.canaryCorrupt
  else if idx < l.length then Except.ok (l.take idx ++ l.drop (idx + 1))
  else Except.error AbortKind.corruption

/-! ### calloc (spec §6) -/

/-- Source `_iso_calloc` overflow guard:
`__builtin_umul_overflow(nmemb, size, &res)` where `res` is declared
`unsigned int`.  That builtin's prototype is
`bool(unsigned int, unsigned int, unsigned int *)`, so both `size_t`
arguments are first truncated to 32 bits and the check reports overflow
of the product of the truncated operands past 32 bits. -/
def _iso_calloc_overflow_check (nmemb size : Nat) : Bool :=
  decide (2 ^ 32 ≤ (nmemb % 2 ^ 32) * (size % 2 ^ 32))

/-- Source `_iso_calloc`: `size_t sz = nmemb * size` (64-bit product). -/
def _iso_calloc_sz (nmemb size : Nat) : Nat := (nmemb * size) % 2 ^ 64

/-! ### Allocation dispatch (spec §4.7 / §8 boundary behaviours) -/

inductive AllocPath where
  | zeroPage   -- NO_ZERO_ALLOCATIONS: size == 0 returns the sentinel page
  | small      -- zone-based path (size <= SMALL_SZ_MAX)
  | big        -- _iso_big_alloc path
  deriving Repr, DecidableEq

/-- The dispatch at the top of `_iso_alloc(zone, size)` for `zone == NULL`
(no private zone supplied), with `NO_ZERO_ALLOCATIONS` on:
`if(LIKELY(size <= SMALL_SZ_MAX))` selects the zone-based path, anything
larger goes to `_iso_big_alloc`.  `SMALL_SZ_MAX` is a configuration
constant from a header not among the sources, passed as a parameter. -/
def _iso_alloc_dispatch (small_sz_max size : Nat) : AllocPath :=
  if size = 0 then AllocPath.zeroPage
  else if size ≤ small_sz_max then AllocPath.small
  else AllocPath.big

/-! ### Free dispatch and the zero-allocation sentinel (spec §6) -/

inductive FreeOutcome where
  | noop        -- silently return
  | abort       -- LOG_AND_ABORT
  | dispatched  -- fall through to quarantine / zone search
  deriving Repr, DecidableEq

/-- The NULL and zero-sentinel handling at the top of source
`_iso_free(p, permanent)` (NO_ZERO_ALLOCATIONS on, ALLOC_SANITY and
HEAP_PROFILER off); `dispatched` stands for the remainder of the
function (permanent dispatch and quarantine), which this claim does not
touch. -/
def _iso_free_sentinel (p zero_alloc_page : Nat) (_permanent : Bool) : FreeOutcome :=
  if p = 0 then FreeOutcome.noop
  else if p = zero_alloc_page then FreeOutcome.noop
  else FreeOutcome.dispatched

/-- The NULL and zero-sentinel handling at the top of source
`_iso_free_size(p, size)`: a non-zero `size` together with the sentinel
page is a fatal error; the sentinel with `size == 0` is a no-op. -/
def _iso_free_size_sentinel (p zero_alloc_page size : Nat) : FreeOutcome :=
  if p = 0 then FreeOutcome.noop
  else if p = zero_alloc_page ∧ size ≠ 0 then FreeOutcome.abort
  else if p = zero_alloc_page then FreeOutcome.noop
  else FreeOutcome.dispatched

/-! ### Zone retirement (spec §4.11) -/

/-- Source `_is_zone_retired(zone)` (iso_alloc.c). -/
def _is_zone_retired (z : Zone) : Bool :=
  z.af_count == 0
    && decide (GET_CHUNK_COUNT z.chunk_size * ZONE_ALLOC_RETIRE < z.alloc_count)
    && z.internal
    && decide (z.chunk_size < MAX_DEFAULT_ZONE_SZ * 2)

/-- The effect of retirement-and-replacement
(`_iso_alloc_destroy_zone_unlocked(zone, false, true)`) on the zone
record at the retired index: `_unmap_zone` discards the old mappings and
`_iso_new_zone(size, true)` rebuilds a zone of the same chunk size at
the same index.  `_iso_new_zone` starts with
`memset(new_zone, 0x0, sizeof(iso_alloc_zone_t))` — in particular
`alloc_count` and `af_count` restart at 0 — recomputes `bitmap_size`,
maps a fresh zeroed bitmap and user region, runs canary creation and the
free-slot cache fill, and primes `next_free_bit_slot`.  The fresh user
mapping base and the random draws are passed as parameters. -/
def zone_replace (z : Zone) (ups' : Nat) (canary_idxs : List Nat) (fill_start : Nat) : Zone :=
  let chunk_count := GET_CHUNK_COUNT z.chunk_size
  let bitmap_size := max ((chunk_count <<< 1) >>> 3) 8
  let zeroed : Zone :=
    { index := z.index
      chunk_size := z.chunk_size
      user_pages_start := ups'
      bitmap := List.replicate (bitmap_size >>> 3) 0
      bitmap_size := bitmap_size
      af_count := 0
      alloc_count := 0
      next_free_bit_slot := 0
      free_bit_slot_cache := List.replicate BIT_SLOT_CACHE_SZ 0
      free_bit_slot_cache_index := 0
      free_bit_slot_cache_usable := 0
      is_full := false
      internal := true
      canary_ok := fun _ => false }
  let z1 := create_canary_chunks zeroed canary_idxs
  let z2 := fill_free_bit_slot_cache z1 fill_start
  (get_next_free_bit_slot z2).1

/-- Source `_iso_free_internal_unlocked(p, permanent, zone)` with the
owning zone already known: free the chunk from the zone, then retire and
replace the zone if `_is_zone_retired` says so (memory-tag and
UAF-page sampling features are compiled out). -/
def _iso_free_internal_unlocked (z : Zone) (p : Nat) (permanent : Bool)
    (ups' : Nat) (canary_idxs : List Nat) (fill_start : Nat) : Except AbortKind Zone :=
  match iso_free_chunk_from_zone z p permanent with
  | Except.error e => Except.error e
  | Except.ok z' =>
    Except.ok (if _is_zone_retired z' then zone_replace z' ups' canary_idxs fill_start else z')

/-! ### List access helpers -/

theorem getD_set_ne : ∀ (l : List Nat) (i j x : Nat), i ≠ j →
    (l.set i x).getD j 0 = l.getD j 0
  | [], _, _, _, _ => rfl
  | _ :: _, 0, 0, _, h => absurd rfl h
  | _ :: _, 0, _ + 1, _, _ => by simp [List.set]
  | _ :: _, _ + 1, 0, _, _ => by simp [List.set]
  | _ :: l, i + 1, j + 1, x, h => by
    simp only [List.set, List.getD_cons_succ]
    exact getD_set_ne l i j x (by omega)

theorem getD_set_self : ∀ (l : List Nat) (i x : Nat), i < l.length →
    (l.set i x).getD i 0 = x
  | [], _, _, h => absurd h (by simp)
  | _ :: _, 0, _, _ => rfl
  | _ :: l, i + 1, x, h => by
    simp only [List.set, List.getD_cons_succ]
    exact getD_set_self l i x (by simpa using h)

theorem getD_append_ge : ∀ (l m : List Nat) (k : Nat), l.length ≤ k →
    (l ++ m).getD k 0 = m.getD (k - l.length) 0
  | [], m, k, _ => by simp
  | _ :: _, _, 0, h => absurd h (by simp)
  | a :: l, m, k + 1, h => by
    simp only [List.cons_append, List.getD_cons_succ, List.length_cons]
    rw [getD_append_ge l m k (by simpa using h)]
    congr 1
    omega

theorem getD_replicate : ∀ (n a k : Nat), k < n → (List.replicate n a).getD k 0 = a
  | 0, _, _, h => absurd h (by simp)
  | _ + 1, _, 0, _ => rfl
  | n + 1, a, k + 1, h => by
    simp only [List.replicate, List.getD_cons_succ]
    exact getD_replicate n a k (by omega)

/-! ### The cache sentinel invariant is the program's own (spec §4.4) -/

/-- The refill procedure establishes the cache invariant: it memsets the
whole cache to `BAD_BIT_SLOT` and then fills exactly the first
`free_bit_slot_cache_index` entries. -/
theorem cacheInv_fill (z : Zone) (start_idx : Nat) :
    cacheInv (fill_free_bit_slot_cache z start_idx) := by
  unfold fill_free_bit_slot_cache cacheInv
  dsimp only
  set slots := ((List.range (z.bitmap_size >>> 3 - start_idx)).map (fun k => start_idx + k)).map
      (fun i => (List.range 32).filterMap (fun t =>
        if getBit (z.bitmap.getD i 0) (2 * t) = 0 then some ((i <<< 6) + 2 * t) else none))
  have hlen : (slots.flatten.take BIT_SLOT_CACHE_SZ).length ≤ BIT_SLOT_CACHE_SZ := by
    rw [List.length_take]
    exact min_le_left _ _
  refine ⟨hlen, ?_, ?_⟩
  · rw [List.length_append, List.length_replicate]
    omega
  · intro k hk hik
    rw [getD_append_ge _ _ _ hik, getD_replicate]
    omega

/-- Enqueuing a freed slot preserves the cache invariant. -/
theorem cacheInv_insert (z : Zone) (slot : Nat) (h : cacheInv z) :
    cacheInv (insert_free_bit_slot z slot) := by
  obtain ⟨h1, h2, h3⟩ := h
  unfold insert_free_bit_slot
  split
  · exact ⟨h1, h2, h3⟩
  · rename_i hidx
    push_neg at hidx
    refine ⟨hidx, by simpa [List.length_set] using h2, ?_⟩
    intro k hk hik
    simp only at hik ⊢
    rw [getD_set_ne _ _ _ _ (by omega)]
    exact h3 k hk (by omega)

/-- Dequeuing preserves the cache invariant (the dequeued entry is
overwritten with the sentinel). -/
theorem cacheInv_dequeue (z : Zone) (h : cacheInv z) :
    cacheInv (get_next_free_bit_slot z).1 := by
  obtain ⟨h1, h2, h3⟩ := h
  unfold get_next_free_bit_slot
  split
  · exact ⟨h1, h2, h3⟩
  · refine ⟨h1, by simpa [List.length_set] using h2, ?_⟩
    intro k hk hik
    simp only at hik ⊢
    rcases eq_or_ne k z.free_bit_slot_cache_usable with rfl | hne
    · rw [getD_set_self _ _ _ (by omega)]
    · rw [getD_set_ne _ _ _ _ (Ne.symm hne)]
      exact h3 k hk hik

/-! ### Concrete states used by witnesses and counterexamples -/

/-- A small fresh-looking zone: one all-zero bitmap word in view, empty
free-slot cache, intact canaries. -/
def witnessZone : Zone where
  index := 0
  chunk_size := 16
  user_pages_start := 4096
  bitmap := [0]
  bitmap_size := 65536
  af_count := 0
  alloc_count := 0
  next_free_bit_slot := BAD_BIT_SLOT
  free_bit_slot_cache := List.replicate BIT_SLOT_CACHE_SZ BAD_BIT_SLOT
  free_bit_slot_cache_index := 0
  free_bit_slot_cache_usable := 0
  is_full := false
  internal := true
  canary_ok := fun _ => true

/-- `witnessZone` after allocating bit slot 0: slot 0 is in-use, both
counters are 1. -/
def witnessZoneAlloc : Zone :=
  { witnessZone with bitmap := [1], af_count := 1, alloc_count := 1 }

/-- A zone whose bitmap word 0 holds slot 0 in-use (`10`) and slot 1 in
state `11` (canary / permanently-freed chunk): bits 0, 2, 3 set.
`af_count = 1` matches the single in-use slot. -/
def exZoneC3 : Zone :=
  { witnessZone with bitmap := [13], af_count := 1, alloc_count := 5 }

/-- A zone whose bitmap word 0 holds slot 0 in-use (`10`), `af_count = 1`:
the state right after `p = alloc(...)` returned chunk 0. -/
def exZoneC1 : Zone :=
  { witnessZone with bitmap := [1], af_count := 1, alloc_count := 1 }

/-- A zone of 8192-byte chunks (`chunk_count = 512`, bitmap of 16 words
inside one mapped page of 512 words), with one live chunk and a lifetime
allocation count just over the retirement threshold
`512 * ZONE_ALLOC_RETIRE = 16384`. -/
def czRetire : Zone where
  index := 3
  chunk_size := 8192
  user_pages_start := 4096
  bitmap := [1]
  bitmap_size := 128
  af_count := 1
  alloc_count := 16385
  next_free_bit_slot := BAD_BIT_SLOT
  free_bit_slot_cache := List.replicate BIT_SLOT_CACHE_SZ BAD_BIT_SLOT
  free_bit_slot_cache_index := 0
  free_bit_slot_cache_usable := 0
  is_full := false
  internal := true
  canary_ok := fun _ => true

/-- A zone of 8192-byte chunks whose bitmap list covers the whole mapped
bitmap page (512 words; `bitmap_size = 128` bytes of it are in use).
Bit slot `2 * chunk_count = 1024` addresses the chunk starting exactly at
`user_pages_start + ZONE_USER_SIZE`. -/
def czEndZone : Zone where
  index := 0
  chunk_size := 8192
  user_pages_start := 4096
  bitmap := List.replicate 512 0
  bitmap_size := 128
  af_count := 0
  alloc_count := 0
  next_free_bit_slot := BAD_BIT_SLOT
  free_bit_slot_cache := List.replicate BIT_SLOT_CACHE_SZ BAD_BIT_SLOT
  free_bit_slot_cache_index := 0
  free_bit_slot_cache_usable := 0
  is_full := false
  internal := true
  canary_ok := fun _ => true

/-- Big-zone list used by witnesses: entry 0 is live, entry 1 is a freed
8192-byte mapping. -/
def witnessBigList : List BigZone :=
  [⟨100000, 4096, false, true⟩, ⟨200000, 8192, true, true⟩]

/-! ## The claims -/

/-- **C4** (code bug).  The claim says calloc aborts exactly when
`nmemb * size` overflows 64 bits.  The code's guard
`__builtin_umul_overflow(nmemb, size, &res)` with `unsigned int res`
truncates both operands to 32 bits: at `nmemb = size = 2^32` the 64-bit
product overflows (it is `2^64`), yet the check sees `0 * 0` and passes,
and the allocation proceeds with `sz = (2^32 * 2^32) % 2^64 = 0` — while
the code's own abort message ("Call to calloc() will overflow") shows
the intent the claim states. -/
theorem claim_C4_calloc_overflow_bug :
    _iso_calloc_overflow_check (2 ^ 32) (2 ^ 32) = false ∧
    2 ^ 64 ≤ 2 ^ 32 * 2 ^ 32 ∧
    _iso_calloc_sz (2 ^ 32) (2 ^ 32) = 0 := by
  refine ⟨by decide, by norm_num, ?_⟩
  unfold _iso_calloc_sz
  norm_num

/-- **C6** (confirmed).  For every zone whose free-slot cache satisfies
the cache invariant maintained by the program itself (`cacheInv_fill`,
`cacheInv_insert`, `cacheInv_dequeue`): the dequeue operation
`get_next_free_bit_slot` returns `BAD_BIT_SLOT` whenever the read cursor
`free_bit_slot_cache_usable` is at or past the write cursor
`free_bit_slot_cache_index` (the cache is empty); when the cache is
non-empty it returns `cache[usable]`, overwrites that entry with
`BAD_BIT_SLOT`, and increments `usable` by one. -/
theorem claim_C6_cache_dequeue (z : Zone) (hinv : cacheInv z) :
    (z.free_bit_slot_cache_usable ≥ z.free_bit_slot_cache_index →
      (get_next_free_bit_slot z).2 = BAD_BIT_SLOT) ∧
    (z.free_bit_slot_cache_usable < z.free_bit_slot_cache_index →
      (get_next_free_bit_slot z).2
          = z.free_bit_slot_cache.getD z.free_bit_slot_cache_usable 0 ∧
        (get_next_free_bit_slot z).1.free_bit_slot_cache
          = z.free_bit_slot_cache.set z.free_bit_slot_cache_usable BAD_BIT_SLOT ∧
        (get_next_free_bit_slot z).1.free_bit_slot_cache_usable
          = z.free_bit_slot_cache_usable + 1) := by
  obtain ⟨h1, h2, h3⟩ := hinv
  constructor
  · intro hge
    unfold get_next_free_bit_slot
    split
    · rfl
    · rename_i hguard
      push_neg at hguard
      simp only
      exact h3 _ (by omega) (by omega)
  · intro hlt
    unfold get_next_free_bit_slot
    split
    · rename_i hguard
      exfalso
      rcases hguard with hg | hg <;> omega
    · exact ⟨rfl, rfl, rfl⟩

set_option maxRecDepth 4000 in
/-- C6 witness: a fresh zone's cache is empty (`usable = index = 0`) and
dequeue returns the sentinel. -/
theorem claim_C6_witness :
    cacheInv witnessZone ∧ (get_next_free_bit_slot witnessZone).2 = BAD_BIT_SLOT :=
  ⟨by decide, (claim_C6_cache_dequeue witnessZone (by decide)).1 (by decide)⟩

/-- **C7** (confirmed).  With no private zone supplied, `_iso_alloc`
sends a request of exactly `SMALL_SZ_MAX` bytes to the zone-based small
path (`size <= SMALL_SZ_MAX`) and a request of `SMALL_SZ_MAX + 1` bytes
to the big-allocation path. -/
theorem claim_C7_dispatch_boundary (small_sz_max : Nat) (h : 1 ≤ small_sz_max) :
    _iso_alloc_dispatch small_sz_max small_sz_max = AllocPath.small ∧
    _iso_alloc_dispatch small_sz_max (small_sz_max + 1) = AllocPath.big := by
  constructor
  · unfold _iso_alloc_dispatch
    rw [if_neg (by omega), if_pos (le_refl small_sz_max)]
  · unfold _iso_alloc_dispatch
    rw [if_neg (by omega), if_neg (by omega)]

/-- C7 witness at a concrete configuration value. -/
theorem claim_C7_witness :
    _iso_alloc_dispatch 65536 65536 = AllocPath.small ∧
    _iso_alloc_dispatch 65536 (65536 + 1) = AllocPath.big :=
  claim_C7_dispatch_boundary 65536 (by decide)

/-- **C10** (confirmed).  With `NO_ZERO_ALLOCATIONS` enabled:
`free_size(p, size)` on the zero-allocation sentinel page aborts whenever
`size != 0` and is a no-op when `size == 0`, while plain `free` of the
sentinel page is a no-op regardless of the `permanent` flag. -/
theorem claim_C10_zero_sentinel (p size : Nat) (permanent : Bool) (hp : p ≠ 0) :
    (size ≠ 0 → _iso_free_size_sentinel p p size = FreeOutcome.abort) ∧
    _iso_free_size_sentinel p p 0 = FreeOutcome.noop ∧
    _iso_free_sentinel p p permanent = FreeOutcome.noop := by
  refine ⟨?_, ?_, ?_⟩
  · intro hs
    unfold _iso_free_size_sentinel
    rw [if_neg hp, if_pos ⟨rfl, hs⟩]
  · unfold _iso_free_size_sentinel
    rw [if_neg hp, if_neg (by simp), if_pos rfl]
  · unfold _iso_free_sentinel
    rw [if_neg hp, if_pos rfl]

/-- C10 witness at a concrete sentinel address and size. -/
theorem claim_C10_witness :
    (8 ≠ 0 → _iso_free_size_sentinel 4096 4096 8 = FreeOutcome.abort) ∧
    _iso_free_size_sentinel 4096 4096 0 = FreeOutcome.noop ∧
    _iso_free_sentinel 4096 4096 true = FreeOutcome.noop :=
  claim_C10_zero_sentinel 4096 8 true (by decide)

/-- **C2** (confirmed).  For an allocation of a bit slot whose chunk
address passes the range check: if the slot's low bit is already 1 the
operation aborts; otherwise (when the canary of a previously-used slot
verifies) the low bit is set, the high bit cleared, the word written
back, and `alloc_count` and `af_count` are each incremented by exactly
one (the third conjunct states the exact increment for any successful
call with counters in 64-bit range). -/
theorem claim_C2_alloc_bitslot (z : Zone) (bitslot : Nat) :
    (z.user_pages_start + (bitslot / 2) * z.chunk_size ≤ z.user_pages_start + ZONE_USER_SIZE →
      getBit (z.bitmap.getD (bitslot >>> 6) 0) (WHICH_BIT bitslot) ≠ 0 →
      _iso_alloc_bitslot_from_zone bitslot z = Except.error AbortKind.alreadyAllocated) ∧
    (z.user_pages_start + (bitslot / 2) * z.chunk_size ≤ z.user_pages_start + ZONE_USER_SIZE →
      getBit (z.bitmap.getD (bitslot >>> 6) 0) (WHICH_BIT bitslot) = 0 →
      ¬(getBit (z.bitmap.getD (bitslot >>> 6) 0) (WHICH_BIT bitslot + 1) = 1 ∧
          z.canary_ok (bitslot / 2) = false) →
      _iso_alloc_bitslot_from_zone bitslot z
        = Except.ok
            ({ z with
                bitmap := z.bitmap.set (bitslot >>> 6)
                  (unsetBit (setBit (z.bitmap.getD (bitslot >>> 6) 0) (WHICH_BIT bitslot))
                    (WHICH_BIT bitslot + 1)),
                af_count := (z.af_count + 1) % 2 ^ 64,
                alloc_count := (z.alloc_count + 1) % 2 ^ 64 },
              z.user_pages_start + (bitslot / 2) * z.chunk_size)) ∧
    (∀ (z' : Zone) (p : Nat), z.af_count + 1 < 2 ^ 64 → z.alloc_count + 1 < 2 ^ 64 →
      _iso_alloc_bitslot_from_zone bitslot z = Except.ok (z', p) →
      z'.af_count = z.af_count + 1 ∧ z'.alloc_count = z.alloc_count + 1) := by
  refine ⟨?_, ?_, ?_⟩
  · intro hrange hlow
    unfold _iso_alloc_bitslot_from_zone
    dsimp only
    rw [if_neg (not_lt.mpr hrange), if_pos hlow]
  · intro hrange hlow hcanary
    unfold _iso_alloc_bitslot_from_zone
    dsimp only
    rw [if_neg (not_lt.mpr hrange), if_neg (by simpa using hlow), if_neg hcanary]
  · intro z' p haf hac h
    unfold _iso_alloc_bitslot_from_zone at h
    dsimp only at h
    split at h
    · exact absurd h (by simp)
    · split at h
      · exact absurd h (by simp)
      · split at h
        · exact absurd h (by simp)
        · injection h with h
          injection h with hz hp
          subst hz
          constructor
          · simpa using Nat.mod_eq_of_lt haf
          · simpa using Nat.mod_eq_of_lt hac

/-- C2 witness: allocating bit slot 0 of a fresh zone succeeds with the
stated word update and counter increments. -/
theorem claim_C2_witness :
    _iso_alloc_bitslot_from_zone 0 witnessZone
      = Except.ok
          ({ witnessZone with
              bitmap := witnessZone.bitmap.set (0 >>> 6)
                (unsetBit (setBit (witnessZone.bitmap.getD (0 >>> 6) 0) (WHICH_BIT 0))
                  (WHICH_BIT 0 + 1)),
              af_count := (witnessZone.af_count + 1) % 2 ^ 64,
              alloc_count := (witnessZone.alloc_count + 1) % 2 ^ 64 },
            witnessZone.user_pages_start + (0 / 2) * witnessZone.chunk_size) :=
  (claim_C2_alloc_bitslot witnessZone 0).2.1 (by decide) (by decide) (by decide)

/-- **C9** (corrected).  The defence-in-depth range check of
`_iso_alloc_bitslot_from_zone` aborts — before touching the bitmap —
exactly when the computed chunk address is *strictly greater than*
`user_pages_start + ZONE_USER_SIZE`.  Contrary to the claim, the address
exactly at the end of the user region (one past the last chunk) is not
rejected, and there is no check against addresses below the region start
(the computed address `user_pages_start + (bit_slot/2) * chunk_size`
cannot be below `user_pages_start` for a non-negative bit slot). -/
theorem claim_C9_alloc_range_check (z : Zone) (bitslot : Nat) :
    (z.user_pages_start + ZONE_USER_SIZE < z.user_pages_start + (bitslot / 2) * z.chunk_size →
      _iso_alloc_bitslot_from_zone bitslot z = Except.error AbortKind.addrOutOfRange) ∧
    (z.user_pages_start + (bitslot / 2) * z.chunk_size ≤ z.user_pages_start + ZONE_USER_SIZE →
      _iso_alloc_bitslot_from_zone bitslot z ≠ Except.error AbortKind.addrOutOfRange) := by
  constructor
  · intro h
    unfold _iso_alloc_bitslot_from_zone
    dsimp only
    rw [if_pos h]
  · intro h
    unfold _iso_alloc_bitslot_from_zone
    dsimp only
    rw [if_neg (not_lt.mpr h)]
    split
    · exact fun hc => AbortKind.noConfusion (Except.error.inj hc)
    · split
      · exact fun hc => AbortKind.noConfusion (Except.error.inj hc)
      · exact fun hc => Except.noConfusion hc

/-- C9 counterexample: in a zone of 8192-byte chunks, bit slot
`2 * chunk_count = 1024` addresses the chunk at exactly
`user_pages_start + ZONE_USER_SIZE` — outside the user region, so the
claim requires an abort — yet the allocation proceeds, modifies the
bitmap (word 16 of the mapped bitmap page) and returns that address. -/
theorem claim_C9_counterexample :
    czEndZone.user_pages_start + ZONE_USER_SIZE
        ≤ czEndZone.user_pages_start + (1024 / 2) * czEndZone.chunk_size ∧
    (_iso_alloc_bitslot_from_zone 1024 czEndZone).map
        (fun r => (r.1.bitmap.getD 16 0, r.1.af_count, r.2))
      = Except.ok (1, 1, czEndZone.user_pages_start + ZONE_USER_SIZE) := by
  constructor
  · decide
  · rfl

/-- C9 witness: one chunk further (bit slot 1026) the address is strictly
beyond the end and the range check aborts. -/
theorem claim_C9_witness :
    _iso_alloc_bitslot_from_zone 1026 czEndZone = Except.error AbortKind.addrOutOfRange :=
  (claim_C9_alloc_range_check czEndZone 1026).1 (by decide)

/-- The list walk of `_iso_big_alloc` stops at the first record with
`free == true && size >= sz`, clears its free flag and returns its user
pages, leaving every other record untouched. -/
theorem bigWalkReuse_first_fit :
    ∀ (l : List BigZone) (sz i : Nat),
      (∀ b ∈ l, b.canary_ok = true) → i < l.length →
      ((l.getD i default).free = true ∧ sz ≤ (l.getD i default).size) →
      (∀ j, j < i → ¬((l.getD j default).free = true ∧ sz ≤ (l.getD j default).size)) →
      bigWalkReuse l sz
        = Except.ok (some (l.set i { l.getD i default with free := false },
            (l.getD i default).user_pages_start))
  | [], _, i, _, hi, _, _ => absurd hi (by simp)
  | b :: rest, sz, 0, hcan, _, hfit, _ => by
    unfold bigWalkReuse
    rw [if_neg (by simp [hcan b (List.mem_cons_self b rest)])]
    rw [if_pos (by simpa using hfit)]
    rfl
  | b :: rest, sz, i + 1, hcan, hi, hfit, hfirst => by
    unfold bigWalkReuse
    rw [if_neg (by simp [hcan b (List.mem_cons_self b rest)])]
    have hnotb : ¬(b.free = true ∧ b.size ≥ sz) := by
      have := hfirst 0 (Nat.succ_pos i)
      simpa using this
    rw [if_neg hnotb]
    have ih := bigWalkReuse_first_fit rest sz i
      (fun x hx => hcan x (List.mem_cons_of_mem b hx))
      (by simpa using hi)
      (by simpa using hfit)
      (fun j hj => by simpa using hfirst (j + 1) (by omega))
    rw [ih]
    rfl

/-- **C8** (confirmed).  For a big allocation request whose page-rounded
size neither wraps nor exceeds `BIG_SZ_MAX`: if the big-zone list
contains an entry with `free == true` and `size >=` the rounded request,
the first such entry in list order is reused — its free flag cleared and
its `user_pages_start` returned — and no fresh mapping is created (the
result is `reuse`, not `newMapping`).  `i` names the position of the
first fitting entry. -/
theorem claim_C8_big_reuse (big_sz_max page_size : Nat) (l : List BigZone) (size i : Nat)
    (hnowrap : size ≤ ROUND_UP_PAGE page_size size)
    (hmax : ROUND_UP_PAGE page_size size ≤ big_sz_max)
    (hcan : ∀ b ∈ l, b.canary_ok = true)
    (hi : i < l.length)
    (hfit : (l.getD i default).free = true ∧
      ROUND_UP_PAGE page_size size ≤ (l.getD i default).size)
    (hfirst : ∀ j, j < i → ¬((l.getD j default).free = true ∧
      ROUND_UP_PAGE page_size size ≤ (l.getD j default).size)) :
    _iso_big_alloc big_sz_max page_size l size
      = Except.ok (BigAllocResult.reuse
          (l.set i { l.getD i default with free := false })
          (l.getD i default).user_pages_start) := by
  unfold _iso_big_alloc
  dsimp only
  rw [if_neg (by push_neg; exact ⟨hnowrap, hmax⟩)]
  rw [bigWalkReuse_first_fit l (ROUND_UP_PAGE page_size size) i hcan hi hfit hfirst]

/-- C8 witness: a 5000-byte request rounds to 8192; entry 0 is live,
entry 1 is a freed 8192-byte mapping, so entry 1 is reused. -/
theorem claim_C8_witness :
    _iso_big_alloc (2 ^ 32) 4096 witnessBigList 5000
      = Except.ok (BigAllocResult.reuse
          (witnessBigList.set 1 { witnessBigList.getD 1 default with free := false })
          (witnessBigList.getD 1 default).user_pages_start) :=
  claim_C8_big_reuse (2 ^ 32) 4096 witnessBigList 5000 1 (by decide) (by decide)
    (by decide) (by decide) (by decide) (by decide)

/-- **C1** (corrected).  (a) A free of a small chunk whose bitmap low
bit is 0 (not currently allocated) never succeeds — the operation
aborts.  (b) Freeing a big zone whose free flag is already true aborts.
(c) The claim's conclusion holds for plain frees: after a successful
*non-permanent* free of `p`, a second free of `p` with no intervening
allocation always aborts.  (The conclusion fails as stated for permanent
frees: a permanent free leaves the low bit set — state `11` — so a
second free of the same pointer is not detected; see the
counterexample.) -/
theorem claim_C1_double_free :
    (∀ (z : Zone) (p : Nat) (permanent : Bool) (z' : Zone),
      getBit (z.bitmap.getD (((sub64 p z.user_pages_start / z.chunk_size) <<< 1) >>> 6) 0)
        (WHICH_BIT ((sub64 p z.user_pages_start / z.chunk_size) <<< 1)) = 0 →
      iso_free_chunk_from_zone z p permanent ≠ Except.ok z') ∧
    (∀ (l : List BigZone) (idx : Nat) (permanent : Bool),
      (l.getD idx default).free = true →
      iso_free_big_zone l idx permanent = Except.error AbortKind.doubleFree) ∧
    (∀ (z : Zone) (p : Nat) (z' : Zone),
      (∀ w ∈ z.bitmap, w < 2 ^ 64) →
      iso_free_chunk_from_zone z p false = Except.ok z' →
      ∀ (permanent : Bool) (z'' : Zone),
        iso_free_chunk_from_zone z' p permanent ≠ Except.ok z'') := by
  refine ⟨?_, ?_, ?_⟩
  · intro z p permanent z' hzero h
    obtain ⟨_, _, _, _, hlow⟩ := iso_free_chunk_ok_elim z p permanent z' h
    exact hlow hzero
  · intro l idx permanent hfree
    unfold iso_free_big_zone
    dsimp only
    rw [if_pos hfree]
  · intro z p z' hwf h1 permanent z'' h2
    obtain ⟨hz', _, _, _, hlow⟩ := iso_free_chunk_ok_elim z p false z' h1
    obtain ⟨_, _, _, _, hlow2⟩ := iso_free_chunk_ok_elim z' p permanent z'' h2
    set cn := sub64 p z.user_pages_start / z.chunk_size with hcn
    set bs := cn <<< 1 with hbs
    set dwords := bs >>> 6 with hdwords
    set which := WHICH_BIT bs with hwhich
    set b := z.bitmap.getD dwords 0 with hbdef
    have hlow' : b.testBit which = true := by
      rw [getBit_eq_testBit] at hlow
      by_contra hc
      simp [eq_false_of_ne_true hc] at hlow
    have hdw : dwords < z.bitmap.length := by
      by_contra hc
      push_neg at hc
      have hb0 : b = 0 := by
        rw [hbdef]
        exact List.getD_eq_default _ _ hc
      rw [hb0] at hlow'
      simp [Nat.zero_testBit] at hlow'
    have hblt : b < 2 ^ 64 := hwf b (getD_mem_of_lt _ _ hdw)
    have hwhich_lt : which < 64 := Nat.mod_lt _ (by norm_num)
    have hwhich_even : which % 2 = 0 := by
      rw [hwhich]
      unfold WHICH_BIT
      rw [hbs]
      omega
    have hb1lt : setBit b (which + 1) < 2 ^ 64 := setBit_lt _ _ hblt (by omega)
    -- the same chunk-number computation applies to the post-free zone
    have hups : z'.user_pages_start = z.user_pages_start := by
      rw [hz', iso_free_chunk_write_ups]
    have hcs : z'.chunk_size = z.chunk_size := by
      rw [hz', iso_free_chunk_write_chunk_size]
    rw [hups, hcs, ← hcn, ← hbs, ← hdwords, ← hwhich] at hlow2
    -- the word now has the low bit cleared
    have hbm : z'.bitmap = z.bitmap.set dwords (unsetBit (setBit b (which + 1)) which) := by
      rw [hz', iso_free_chunk_write_bitmap]
      rw [← hbs, ← hdwords, ← hwhich, ← hbdef]
      simp
    have hread : z'.bitmap.getD dwords 0 = unsetBit (setBit b (which + 1)) which := by
      rw [hbm]
      exact getD_set_self _ _ _ (by simpa using hdw)
    rw [hread, getBit_eq_testBit, testBit_unsetBit _ _ _ hb1lt] at hlow2
    simp at hlow2

/-- C1 counterexample: `alloc; free(p, permanent = true); free(p)` — the
permanent free leaves the slot in state `11` (low bit still 1), so the
second free of the same pointer, with no intervening allocation, runs to
completion instead of aborting. -/
theorem claim_C1_counterexample :
    ((iso_free_chunk_from_zone exZoneC1 4096 true).bind
        (fun z1 => iso_free_chunk_from_zone z1 4096 false)).map (fun _ => true)
      = Except.ok true := by
  rfl

/-- C1 witness: a big-zone record already marked free aborts on free, and
a small chunk whose low bit is 0 cannot be freed successfully. -/
theorem claim_C1_witness :
    iso_free_big_zone [⟨300000, 8192, true, true⟩] 0 false
        = Except.error AbortKind.doubleFree ∧
      iso_free_chunk_from_zone witnessZone 4096 false ≠ Except.ok witnessZone :=
  ⟨claim_C1_double_free.2.1 [⟨300000, 8192, true, true⟩] 0 false (by decide),
   claim_C1_double_free.1 witnessZone 4096 false witnessZone (by decide)⟩

/-- **C3** (corrected).  The af_count invariant — the number of bit
slots in the in-use state `10` equals the zone's `af_count` — is
preserved by every state-changing operation *provided the slot a free
targets is actually in-use*: (a) allocation from a bit slot, (b) free
and permanent free of an in-use slot (high bit 0; the low bit is checked
by the operation itself), and (c) canary-chunk creation.  As stated the
claim is false: a free applied to a slot in state `11` (a canary chunk,
or a chunk that was permanently freed) also decrements `af_count`
although the slot was not in-use, breaking the equality — see the
counterexample. -/
theorem claim_C3_af_count_invariant :
    (∀ (z : Zone) (bitslot : Nat) (z' : Zone) (p : Nat),
      (∀ w ∈ z.bitmap, w < 2 ^ 64) → bitslot % 2 = 0 → bitslot >>> 6 < z.bitmap.length →
      z.af_count + 1 < 2 ^ 64 → afInvariant z →
      _iso_alloc_bitslot_from_zone bitslot z = Except.ok (z', p) → afInvariant z') ∧
    (∀ (z : Zone) (p : Nat) (permanent : Bool) (z' : Zone),
      (∀ w ∈ z.bitmap, w < 2 ^ 64) → z.af_count < 2 ^ 64 → afInvariant z →
      getBit (z.bitmap.getD (((sub64 p z.user_pages_start / z.chunk_size) <<< 1) >>> 6) 0)
        (WHICH_BIT ((sub64 p z.user_pages_start / z.chunk_size) <<< 1) + 1) = 0 →
      iso_free_chunk_from_zone z p permanent = Except.ok z' → afInvariant z') ∧
    (∀ (z : Zone) (idxs : List Nat),
      afInvariant z → afInvariant (create_canary_chunks z idxs)) := by
  refine ⟨?_, ?_, ?_⟩
  · intro z bitslot z' p hwf heven hdw haf hinv h
    exact alloc_bitslot_preserves_afInvariant z bitslot z' p hwf heven hdw haf hinv h
  · intro z p permanent z' hwf haf hinv hhigh h
    exact free_chunk_preserves_afInvariant z p permanent z' hwf haf hinv hhigh h
  · intro z idxs hinv
    exact create_canary_chunks_preserves_afInvariant z idxs hinv

/-- C3 counterexample: `exZoneC3` satisfies the invariant (one in-use
slot, `af_count = 1`), its slot 1 is in state `11`; freeing chunk 1
(address 4112) succeeds, moves the slot to `01` and decrements
`af_count` to 0 while one slot is still in-use — the invariant is false
afterwards. -/
theorem claim_C3_counterexample :
    afInvariant exZoneC3 ∧
    (iso_free_chunk_from_zone exZoneC3 4112 false).map
        (fun z => decide (zoneInUse z = z.af_count)) = Except.ok false := by
  constructor
  · decide
  · rfl

/-- C3 witness: allocating bit slot 0 of a fresh zone preserves the
invariant. -/
theorem claim_C3_witness : afInvariant witnessZoneAlloc :=
  claim_C3_af_count_invariant.1 witnessZone 0 witnessZoneAlloc 4096
    (by decide) (by decide) (by decide) (by decide) (by decide) (by rfl)

theorem create_canary_chunk_alloc_count (z : Zone) (bm_idx : Nat) :
    (create_canary_chunk z bm_idx).alloc_count = z.alloc_count := by
  unfold create_canary_chunk write_canary
  dsimp only
  split <;> rfl

theorem create_canary_chunks_alloc_count (z : Zone) (idxs : List Nat) :
    (create_canary_chunks z idxs).alloc_count = z.alloc_count := by
  unfold create_canary_chunks
  split
  · rfl
  · clear * -
    induction idxs generalizing z with
    | nil => rfl
    | cons i is ih =>
      simp only [List.foldl_cons]
      rw [ih, create_canary_chunk_alloc_count]

theorem fill_free_bit_slot_cache_alloc_count (z : Zone) (start_idx : Nat) :
    (fill_free_bit_slot_cache z start_idx).alloc_count = z.alloc_count := rfl

theorem get_next_free_bit_slot_alloc_count (z : Zone) :
    (get_next_free_bit_slot z).1.alloc_count = z.alloc_count := by
  unfold get_next_free_bit_slot
  split <;> rfl

/-- A replacement zone starts its life with `alloc_count = 0`. -/
theorem zone_replace_alloc_count (z : Zone) (ups' : Nat) (ci : List Nat) (fs : Nat) :
    (zone_replace z ups' ci fs).alloc_count = 0 := by
  unfold zone_replace
  dsimp only
  rw [get_next_free_bit_slot_alloc_count, fill_free_bit_slot_cache_alloc_count,
    create_canary_chunks_alloc_count]

/-- **C5** (corrected).  Within a single zone lifetime `alloc_count`
never decreases: (a) a successful allocation increments it by exactly
one, (b) a free leaves it unchanged.  But the claim's inclusion of
"zone retirement and replacement at the same index" fails: (c) after a
free through `_iso_free_internal_unlocked` the stored value either is
unchanged or — when `_is_zone_retired` triggers the destroy-and-replace
— restarts at 0, which is a decrease (see the counterexample). -/
theorem claim_C5_alloc_count_monotone :
    (∀ (z : Zone) (bitslot : Nat) (z' : Zone) (p : Nat),
      z.alloc_count + 1 < 2 ^ 64 →
      _iso_alloc_bitslot_from_zone bitslot z = Except.ok (z', p) →
      z'.alloc_count = z.alloc_count + 1) ∧
    (∀ (z : Zone) (p : Nat) (permanent : Bool) (z' : Zone),
      iso_free_chunk_from_zone z p permanent = Except.ok z' →
      z'.alloc_count = z.alloc_count) ∧
    (∀ (z : Zone) (p : Nat) (permanent : Bool) (ups' : Nat) (ci : List Nat) (fs : Nat)
        (z'' : Zone),
      _iso_free_internal_unlocked z p permanent ups' ci fs = Except.ok z'' →
      z''.alloc_count = z.alloc_count ∨ z''.alloc_count = 0) := by
  refine ⟨?_, ?_, ?_⟩
  · intro z bitslot z' p hac h
    unfold _iso_alloc_bitslot_from_zone at h
    dsimp only at h
    split at h
    · exact absurd h (by simp)
    · split at h
      · exact absurd h (by simp)
      · split at h
        · exact absurd h (by simp)
        · injection h with h
          injection h with hz hp
          subst hz
          simpa using Nat.mod_eq_of_lt hac
  · intro z p permanent z' h
    obtain ⟨hz', _, _, _, _⟩ := iso_free_chunk_ok_elim z p permanent z' h
    rw [hz', iso_free_chunk_write_alloc_count]
  · intro z p permanent ups' ci fs z'' h
    unfold _iso_free_internal_unlocked at h
    split at h
    · exact absurd h (by simp)
    · rename_i z' heq
      injection h with h
      subst h
      split
      · right
        exact zone_replace_alloc_count _ _ _ _
      · left
        obtain ⟨hz', _, _, _, _⟩ := iso_free_chunk_ok_elim z p permanent z' heq
        rw [hz', iso_free_chunk_write_alloc_count]

set_option maxRecDepth 100000 in
/-- C5 counterexample: `czRetire` stores `alloc_count = 16385`; freeing
its last live chunk drops `af_count` to 0, `_is_zone_retired` fires
(16385 > 512 * ZONE_ALLOC_RETIRE = 16384, internal, 8192 < 16384), the
zone is destroyed and replaced at the same index, and the stored
`alloc_count` becomes 0 — a decrease. -/
theorem claim_C5_counterexample :
    czRetire.alloc_count = 16385 ∧
    (_iso_free_internal_unlocked czRetire 4096 false 8192 [0, 8, 0, 8, 0] 0).map
        (fun z => z.alloc_count) = Except.ok 0 := by
  refine ⟨rfl, ?_⟩
  rfl

/-- C5 witness: a concrete allocation increments `alloc_count` from 0 to 1. -/
theorem claim_C5_witness : witnessZoneAlloc.alloc_count = witnessZone.alloc_count + 1 :=
  claim_C5_alloc_count_monotone.1 witnessZone 0 witnessZoneAlloc 4096 (by decide) (by rfl)

end IsoAlloc
